import Mathlib

/- Verification development for the sunlight optics core
   (packages/optics-core/src/optics.ts, single-lens implementation with
   ABCD ray-transfer matrices).  JavaScript numbers are modelled as real
   numbers; every function below is a direct transcription of the
   corresponding TypeScript function. -/

namespace Sunlight

structure Lens where
  id : String
  aperture : ℝ
  focalLength : ℝ
  position : ℝ
  transmittance : ℝ

inductive PVShape where
  | rectangular
  | circular

structure PhotovoltaicCell where
  shape : PVShape
  width : ℝ
  height : ℝ
  diameter : ℝ
  efficiency : ℝ
  position : ℝ

structure LightSource where
  intensity : ℝ
  zenithAngle : ℝ

structure OpticalSystem where
  lenses : List Lens
  pv : PhotovoltaicCell

@[ext] structure ABCDMatrix where
  a : ℝ
  b : ℝ
  c : ℝ
  d : ℝ

/- `concentration` renders the source field `concentrationRatio`. -/
@[ext] structure RayTraceResult where
  spotDiameter : ℝ
  spotArea : ℝ
  spotCenterY : ℝ
  spotCenterZ : ℝ
  effectiveArea : ℝ
  concentration : ℝ
  isValid : Bool
  outputAngle : ℝ
  totalTransmittance : ℝ

@[ext] structure PowerCalculationResult where
  inputPower : ℝ
  outputPower : ℝ
  spotDiameter : ℝ
  effectiveArea : ℝ
  concentration : ℝ
  systemEfficiency : ℝ
  isValid : Bool

structure AngleSweepResult where
  angle : ℝ
  power : ℝ
  efficiency : ℝ

noncomputable def degToRad (degrees : ℝ) : ℝ := degrees * Real.pi / 180

noncomputable def radToDeg (radians : ℝ) : ℝ := radians * 180 / Real.pi

noncomputable def createLensMatrix (focalLength : ℝ) : ABCDMatrix :=
  ⟨1, 0, -1 / focalLength, 1⟩

def createPropagationMatrix (distance : ℝ) : ABCDMatrix :=
  ⟨1, distance, 0, 1⟩

noncomputable def multiplyMatrices (m1 m2 : ABCDMatrix) : ABCDMatrix :=
  ⟨m1.a * m2.a + m1.b * m2.c, m1.a * m2.b + m1.b * m2.d,
   m1.c * m2.a + m1.d * m2.c, m1.c * m2.b + m1.d * m2.d⟩

/- The source sorts with JavaScript `sort` by position; an insertion sort
   gives the same ascending-by-position order. -/
noncomputable def insertLens (x : Lens) : List Lens → List Lens
  | [] => [x]
  | y :: ys => if x.position ≤ y.position then x :: y :: ys else y :: insertLens x ys

noncomputable def sortLenses : List Lens → List Lens
  | [] => []
  | x :: xs => insertLens x (sortLenses xs)

/- The loop body of buildSystemMatrix: the pair carries the current axial
   position together with the accumulated matrix. -/
noncomputable def systemMatrixFold : List Lens → ℝ → ABCDMatrix → ℝ × ABCDMatrix
  | [], pos, m => (pos, m)
  | lens :: rest, pos, m =>
    let m1 := if pos < lens.position then
        multiplyMatrices (createPropagationMatrix (lens.position - pos)) m
      else m
    let m2 := multiplyMatrices (createLensMatrix lens.focalLength) m1
    systemMatrixFold rest lens.position m2

noncomputable def buildSystemMatrix (lenses : List Lens) (pvPosition : ℝ) : ABCDMatrix :=
  match sortLenses lenses with
  | [] => ⟨1, 0, 0, 1⟩
  | l :: ls =>
    let folded := systemMatrixFold (l :: ls) 0 ⟨1, 0, 0, 1⟩
    if folded.1 < pvPosition then
      multiplyMatrices (createPropagationMatrix (pvPosition - folded.1)) folded.2
    else folded.2

noncomputable def calculateOutputAngle (systemMatrix : ABCDMatrix)
    (inputAngleRad : ℝ) (inputPosition : ℝ) : ℝ :=
  systemMatrix.c * inputPosition + systemMatrix.d * inputAngleRad

noncomputable def calculateEffectiveAperture (aperture zenithAngle : ℝ) : ℝ :=
  aperture * Real.cos (degToRad zenithAngle)

noncomputable def calculateSpotDiameterSingleLens (lens : Lens)
    (pvPosition zenithAngle : ℝ) : ℝ :=
  let effectiveAperture := calculateEffectiveAperture lens.aperture zenithAngle
  let distanceFromLensToPV := pvPosition - lens.position
  if distanceFromLensToPV ≤ 0 then effectiveAperture
  else if distanceFromLensToPV = lens.focalLength then 0
  else effectiveAperture * (|distanceFromLensToPV - lens.focalLength| / lens.focalLength)

noncomputable def calculateOverlapArea (pv : PhotovoltaicCell)
    (spotCenterY spotCenterZ spotRadius : ℝ) : ℝ :=
  match pv.shape with
  | PVShape.circular =>
    let pvRadius := pv.diameter / 2
    let distance := Real.sqrt (spotCenterY ^ 2 + spotCenterZ ^ 2)
    if spotRadius + pvRadius ≤ distance then 0
    else if distance ≤ |spotRadius - pvRadius| then
      Real.pi * (min spotRadius pvRadius) ^ 2
    else
      let r1 := spotRadius
      let r2 := pvRadius
      let d := distance
      r1 ^ 2 * Real.arccos ((d ^ 2 + r1 ^ 2 - r2 ^ 2) / (2 * d * r1))
        + r2 ^ 2 * Real.arccos ((d ^ 2 + r2 ^ 2 - r1 ^ 2) / (2 * d * r2))
        - 0.5 * Real.sqrt ((-d + r1 + r2) * (d + r1 - r2) * (d - r1 + r2) * (d + r1 + r2))
  | PVShape.rectangular =>
    let halfWidth := pv.width / 2
    let halfHeight := pv.height / 2
    let left := max (-halfWidth) (spotCenterZ - spotRadius)
    let right := min halfWidth (spotCenterZ + spotRadius)
    let bottom := max (-halfHeight) (spotCenterY - spotRadius)
    let top := min halfHeight (spotCenterY + spotRadius)
    if right ≤ left ∨ top ≤ bottom then 0
    else
      let rectOverlap := (right - left) * (top - bottom)
      let spotArea := Real.pi * spotRadius ^ 2
      let overlapCenterY := (bottom + top) / 2
      let overlapCenterZ := (left + right) / 2
      let distFromSpotCenter :=
        Real.sqrt ((overlapCenterY - spotCenterY) ^ 2 + (overlapCenterZ - spotCenterZ) ^ 2)
      if distFromSpotCenter < spotRadius * 0.5 then min rectOverlap spotArea
      else min (rectOverlap * 0.785) spotArea

/- The source returns the sentinel when `lenses.length !== 1` and otherwise
   reads `lenses[0]`; the match below is the same case split. -/
noncomputable def traceRaysThroughSystem (system : OpticalSystem)
    (zenithAngle : ℝ) : RayTraceResult :=
  match system.lenses with
  | [lens] =>
    let inputAngleRad := degToRad zenithAngle
    let systemMatrix := buildSystemMatrix [lens] system.pv.position
    let outputAngleRad := calculateOutputAngle systemMatrix inputAngleRad 0
    let totalTransmittance := lens.transmittance
    let distanceToPV := system.pv.position - lens.position
    let focalShiftY := lens.focalLength * Real.tan inputAngleRad
    let t := distanceToPV / lens.focalLength
    let spotCenterY := focalShiftY * t
    let spotCenterZ := (0 : ℝ)
    let spotDiameter := max (calculateSpotDiameterSingleLens lens system.pv.position zenithAngle) 0.001
    let spotArea := Real.pi * (spotDiameter / 2) ^ 2
    let spotRadius := spotDiameter / 2
    let effectiveArea := calculateOverlapArea system.pv spotCenterY spotCenterZ spotRadius
    let inputArea := Real.pi * (lens.aperture / 2) ^ 2
    ⟨spotDiameter, spotArea, spotCenterY, spotCenterZ, effectiveArea,
      if 0 < spotArea then inputArea / spotArea else 0,
      true, radToDeg outputAngleRad, totalTransmittance⟩
  | _ => ⟨0, 0, 0, 0, 0, 0, false, zenithAngle, 0⟩

/- In the source the guard is `!rayTrace.isValid`; the trace is valid exactly
   when the system has one lens, after which the source reads `lenses[0]`,
   so the match below is the same case split. -/
noncomputable def calculatePower (system : OpticalSystem)
    (lightSource : LightSource) : PowerCalculationResult :=
  let rayTrace := traceRaysThroughSystem system lightSource.zenithAngle
  match system.lenses with
  | [lens] =>
    let effectiveInputAperture := calculateEffectiveAperture lens.aperture lightSource.zenithAngle
    let inputArea := Real.pi * (effectiveInputAperture / 2) ^ 2
    let inputPower := lightSource.intensity * inputArea
    let outputAngleRad := degToRad rayTrace.outputAngle
    let incidenceCosFactor := max 0 (Real.cos outputAngleRad)
    let iOptical := lightSource.intensity * rayTrace.totalTransmittance
    let iEffective := iOptical * rayTrace.concentration * incidenceCosFactor
    let pIncident := iEffective * rayTrace.effectiveArea
    let outputPower := pIncident * system.pv.efficiency
    ⟨inputPower, outputPower, rayTrace.spotDiameter, rayTrace.effectiveArea,
      rayTrace.concentration,
      if 0 < inputPower then outputPower / inputPower else 0,
      true⟩
  | _ => ⟨0, 0, 0, 0, 0, 0, false⟩

/- The source loop `for (angle = startAngle; angle <= endAngle; angle += step)`
   with an explicit fuel bound; `none` means the loop has not finished within
   the bound, so termination of the source call is `∃ fuel, … = some _`. -/
noncomputable def sweepAngleRange : ℕ → ℝ → ℝ → ℝ → Option (List ℝ)
  | 0, angle, endAngle, _ => if angle ≤ endAngle then none else some []
  | fuel + 1, angle, endAngle, step =>
    if angle ≤ endAngle then
      (sweepAngleRange fuel (angle + step) endAngle step).map (fun rest => angle :: rest)
    else some []

noncomputable def sweepAngle (fuel : ℕ) (system : OpticalSystem) (intensity : ℝ)
    (startAngle endAngle step : ℝ) : Option (List AngleSweepResult) :=
  (sweepAngleRange fuel startAngle endAngle step).map (fun angles =>
    angles.map (fun angle =>
      let powerResult := calculatePower system ⟨intensity, angle⟩
      ⟨angle, powerResult.outputPower, powerResult.systemEfficiency⟩))

noncomputable def validateLens (lens : Lens) : List String :=
  (if lens.aperture ≤ 0 then ["Aperture must be positive"] else [])
    ++ (if lens.focalLength ≤ 0 then ["Focal length must be positive"] else [])
    ++ (if lens.position < 0 then ["Position cannot be negative"] else [])
    ++ (if lens.transmittance < 0 ∨ 1 < lens.transmittance then
          ["Transmittance must be between 0 and 1"] else [])

noncomputable def validatePV (pv : PhotovoltaicCell) : List String :=
  (match pv.shape with
   | PVShape.rectangular =>
     (if pv.width ≤ 0 then ["Width must be positive"] else [])
       ++ (if pv.height ≤ 0 then ["Height must be positive"] else [])
   | PVShape.circular =>
     if pv.diameter ≤ 0 then ["Diameter must be positive"] else [])
    ++ (if pv.efficiency ≤ 0 ∨ 1 < pv.efficiency then
          ["Efficiency must be between 0 and 1"] else [])
    ++ (if pv.position < 0 then ["Position cannot be negative"] else [])

noncomputable def validateOpticalSystem (system : OpticalSystem) : List String :=
  (if system.lenses.length ≠ 1 then ["System must have exactly 1 lens"] else [])
    ++ (system.lenses.mapIdx (fun i lens =>
          (validateLens lens).map (fun err => "Lens " ++ toString (i + 1) ++ ": " ++ err))).flatten
    ++ (validatePV system.pv).map (fun err => "PV: " ++ err)
    ++ (match system.lenses with
        | [lens] =>
          if system.pv.position ≤ lens.position then ["PV must be positioned after the lens"] else []
        | _ => [])

/- Concrete systems used when evaluating the functions at specific inputs. -/

/- A validated single lens at the origin with a large rectangular receiver
   beyond the focal plane. -/
noncomputable def bigReceiverSystem : OpticalSystem :=
  ⟨[⟨"l1", 0.1, 0.2, 0, 0.92⟩], ⟨PVShape.rectangular, 10, 10, 0, 0.9, 0.3⟩⟩

/- A validated single lens placed at its own focal length, receiver exactly
   at the focal plane of the lens, large rectangular receiver. -/
noncomputable def lensAtFocalSystem : OpticalSystem :=
  ⟨[⟨"l1", 0.1, 0.2, 0.2, 0.92⟩], ⟨PVShape.rectangular, 10, 10, 0, 0.2, 0.4⟩⟩

/- A validated single lens at the origin, large rectangular receiver,
   receiver away from the focal plane. -/
noncomputable def monoWitnessSystem : OpticalSystem :=
  ⟨[⟨"l1", 0.1, 0.2, 0, 0.92⟩], ⟨PVShape.rectangular, 10, 10, 0, 0.2, 0.3⟩⟩

/- Receiver exactly at the focal distance of the lens (perfect focus). -/
noncomputable def perfectFocusSystem : OpticalSystem :=
  ⟨[⟨"l1", 100, 200, 0, 0.92⟩], ⟨PVShape.rectangular, 50, 50, 0, 0.2, 200⟩⟩

/- A system with two lenses (out of domain for the single-lens tracer). -/
noncomputable def twoLensSystem : OpticalSystem :=
  ⟨[⟨"l1", 100, 200, 0, 0.92⟩, ⟨"l2", 50, 100, 150, 0.92⟩],
   ⟨PVShape.rectangular, 20, 20, 0, 0.2, 300⟩⟩

/- ===================== theorems ===================== -/

lemma multiplyMatrices_id (m : ABCDMatrix) :
    multiplyMatrices m ⟨1, 0, 0, 1⟩ = m := by
  apply ABCDMatrix.ext <;> simp [multiplyMatrices]

lemma buildSystemMatrix_single (i : String) (ap f l τ p : ℝ)
    (hl : 0 ≤ l) (hlp : l < p) :
    buildSystemMatrix [⟨i, ap, f, l, τ⟩] p =
      multiplyMatrices (createPropagationMatrix (p - l))
        (multiplyMatrices (createLensMatrix f) (createPropagationMatrix l)) := by
  have hzero : createPropagationMatrix 0 = ⟨1, 0, 0, 1⟩ := rfl
  simp only [buildSystemMatrix, sortLenses, insertLens, systemMatrixFold]
  rcases hl.eq_or_lt with h0 | h0
  · subst h0
    rw [if_neg (lt_irrefl (0 : ℝ))]
    rw [if_pos hlp, hzero, multiplyMatrices_id]
  · rw [if_pos h0, sub_zero, multiplyMatrices_id]
    rw [if_pos hlp]

lemma buildSystemMatrix_single_cd (i : String) (ap f l τ p : ℝ)
    (hl : 0 ≤ l) (hlp : l < p) :
    (buildSystemMatrix [⟨i, ap, f, l, τ⟩] p).c = -1 / f ∧
    (buildSystemMatrix [⟨i, ap, f, l, τ⟩] p).d = 1 - l / f := by
  rw [buildSystemMatrix_single i ap f l τ p hl hlp]
  constructor <;>
    simp [multiplyMatrices, createPropagationMatrix, createLensMatrix] <;> ring

/-- C7: buildSystemMatrix applied to an empty lens list is the 2x2 identity
for every receiver position; for a single lens with focal length f > 0 at
position l ≥ 0 and receiver at p > l it equals
propagation(p−l) · lens(f) · propagation(l) in right-to-left composition,
which for l = 0 is the matrix [[1 − p/f, p], [−1/f, 1]]. -/
theorem c7_build_system_matrix :
    (∀ p : ℝ, buildSystemMatrix [] p = ⟨1, 0, 0, 1⟩) ∧
    (∀ (i : String) (ap f l τ p : ℝ), 0 < f → 0 ≤ l → l < p →
      buildSystemMatrix [⟨i, ap, f, l, τ⟩] p =
        multiplyMatrices (createPropagationMatrix (p - l))
          (multiplyMatrices (createLensMatrix f) (createPropagationMatrix l)) ∧
      (l = 0 → buildSystemMatrix [⟨i, ap, f, l, τ⟩] p = ⟨1 - p / f, p, -1 / f, 1⟩)) := by
  refine ⟨fun p => rfl, fun i ap f l τ p hf hl hlp =>
    ⟨buildSystemMatrix_single i ap f l τ p hl hlp, fun h0 => ?_⟩⟩
  subst h0
  rw [buildSystemMatrix_single i ap f 0 τ p le_rfl hlp]
  apply ABCDMatrix.ext <;>
    simp [multiplyMatrices, createPropagationMatrix, createLensMatrix] <;> ring

/-- Witness for C7 at a concrete lens (f = 2, l = 0) and receiver p = 3. -/
theorem c7_build_system_matrix_witness :
    buildSystemMatrix [⟨"w", 1, 2, 0, 1⟩] 3 = ⟨1 - 3 / 2, 3, -1 / 2, 1⟩ :=
  (c7_build_system_matrix.2 "w" 1 2 0 1 3 (by norm_num) le_rfl (by norm_num)).2 rfl

/-- C3: when the lens count is not exactly 1 the tracer returns the sentinel
with isValid = false and all six numeric fields 0, and calculatePower returns
the all-zero isValid = false result; no exception is possible (the functions
are total). -/
theorem c3_non_single_lens_sentinel (sys : OpticalSystem) (θ I : ℝ)
    (h : sys.lenses.length ≠ 1) :
    traceRaysThroughSystem sys θ = ⟨0, 0, 0, 0, 0, 0, false, θ, 0⟩ ∧
    calculatePower sys ⟨I, θ⟩ = ⟨0, 0, 0, 0, 0, 0, false⟩ := by
  rcases sys with ⟨lenses, pv⟩
  rcases lenses with _ | ⟨a, _ | ⟨b, t⟩⟩
  · exact ⟨rfl, rfl⟩
  · exact absurd rfl h
  · exact ⟨rfl, rfl⟩

/-- Witness for C3 at a concrete two-lens system. -/
theorem c3_non_single_lens_sentinel_witness :
    traceRaysThroughSystem twoLensSystem 0 = ⟨0, 0, 0, 0, 0, 0, false, 0, 0⟩ ∧
    calculatePower twoLensSystem ⟨1000, 0⟩ = ⟨0, 0, 0, 0, 0, 0, false⟩ :=
  c3_non_single_lens_sentinel twoLensSystem 0 1000 (by norm_num [twoLensSystem])

/-- C6: for every system with exactly one lens and every zenith angle the
spotDiameter of the trace result is at least 0.001 and never exactly 0. -/
theorem c6_spot_diameter_floor (sys : OpticalSystem) (θ : ℝ)
    (h : sys.lenses.length = 1) :
    0.001 ≤ (traceRaysThroughSystem sys θ).spotDiameter ∧
    (traceRaysThroughSystem sys θ).spotDiameter ≠ 0 := by
  rcases sys with ⟨lenses, pv⟩
  rcases lenses with _ | ⟨a, _ | ⟨b, t⟩⟩
  · simp at h
  · have hD : (traceRaysThroughSystem ⟨[a], pv⟩ θ).spotDiameter
        = max (calculateSpotDiameterSingleLens a pv.position θ) 0.001 := rfl
    rw [hD]
    exact ⟨le_max_right _ _,
      (lt_of_lt_of_le (by norm_num) (le_max_right _ _)).ne'⟩
  · simp at h

/-- Witness for C6 with the receiver exactly at the focal distance. -/
theorem c6_spot_diameter_floor_witness :
    0.001 ≤ (traceRaysThroughSystem perfectFocusSystem 0).spotDiameter ∧
    (traceRaysThroughSystem perfectFocusSystem 0).spotDiameter ≠ 0 :=
  c6_spot_diameter_floor perfectFocusSystem 0 (by norm_num [perfectFocusSystem])

lemma sweepAngleRange_of_gt (n : ℕ) (a e s : ℝ) (h : ¬ a ≤ e) :
    sweepAngleRange n a e s = some [] := by
  cases n <;> simp [sweepAngleRange, h]

lemma sweepAngleRange_zero_step (n : ℕ) : sweepAngleRange n 0 0 0 = none := by
  induction n with
  | zero => simp [sweepAngleRange]
  | succ k ih => simp [sweepAngleRange, ih]

/-- C2: the sweep loop does not terminate on every input: with
startAngle = endAngle = 0 and step = 0 (a degenerate input the claim says
must still complete) no fuel bound makes the source loop finish. -/
theorem c2_sweep_never_finishes (fuel : ℕ) :
    sweepAngle fuel bigReceiverSystem 1000 0 0 0 = none := by
  simp [sweepAngle, sweepAngleRange_zero_step]

lemma sweepAngleRange_demo (n : ℕ) :
    sweepAngleRange (n + 5) 0 60 15 = some [0, 15, 30, 45, 60] := by
  have h75 : sweepAngleRange n 75 60 15 = some [] :=
    sweepAngleRange_of_gt n 75 60 15 (by norm_num)
  norm_num [sweepAngleRange, h75]

/-- C8: for every system and intensity, sweepAngle(system, I, 0, 60, 15)
returns exactly 5 results whose angle fields are 0, 15, 30, 45, 60 in that
order (any fuel bound of at least 5 makes the loop finish). -/
theorem c8_sweep_five_points (sys : OpticalSystem) (I : ℝ) (n : ℕ) :
    ∃ rs : List AngleSweepResult,
      sweepAngle (n + 5) sys I 0 60 15 = some rs ∧
      rs.length = 5 ∧ rs.map (fun r => r.angle) = [0, 15, 30, 45, 60] := by
  refine ⟨([0, 15, 30, 45, 60] : List ℝ).map (fun angle =>
      ⟨angle, (calculatePower sys ⟨I, angle⟩).outputPower,
        (calculatePower sys ⟨I, angle⟩).systemEfficiency⟩), ?_, by simp, by simp⟩
  simp [sweepAngle, sweepAngleRange_demo n]

/-- C9: validateLens emits the aperture message iff aperture ≤ 0, the focal
length message iff focalLength ≤ 0, the position message iff position < 0 and
the transmittance message iff transmittance lies outside [0,1]; each violated
rule contributes its own distinct message (no rule short-circuits another),
the function is total (never raises), and the list is empty iff all four
constraints hold. -/
theorem c9_validate_lens_rules (lens : Lens) :
    ("Aperture must be positive" ∈ validateLens lens ↔ lens.aperture ≤ 0) ∧
    ("Focal length must be positive" ∈ validateLens lens ↔ lens.focalLength ≤ 0) ∧
    ("Position cannot be negative" ∈ validateLens lens ↔ lens.position < 0) ∧
    ("Transmittance must be between 0 and 1" ∈ validateLens lens ↔
      lens.transmittance < 0 ∨ 1 < lens.transmittance) ∧
    (validateLens lens = [] ↔
      0 < lens.aperture ∧ 0 < lens.focalLength ∧ 0 ≤ lens.position ∧
      0 ≤ lens.transmittance ∧ lens.transmittance ≤ 1) := by
  unfold validateLens
  by_cases h1 : lens.aperture ≤ 0 <;>
  by_cases h2 : lens.focalLength ≤ 0 <;>
  by_cases h3 : lens.position < 0 <;>
  by_cases h4 : lens.transmittance < 0 ∨ 1 < lens.transmittance <;>
  simp_all [not_or] <;>
  · intro hcon
    rcases h4 with h5 | h5 <;> linarith

/-- C5: for a circular receiver of radius r2 > 0 and a spot of radius r1 > 0
whose center lies at distance d = √(Y²+Z²) from the receiver center, the
overlap area is 0 when d ≥ r1+r2, the area of the smaller circle when
d ≤ |r1−r2| (so a spot fully enclosed in a larger circular receiver yields
the spot's own area), and otherwise the two-circular-segment formula. -/
theorem c5_circle_overlap_formula (Y Z r1 r2 wd ht eff pos : ℝ)
    (h1 : 0 < r1) (h2 : 0 < r2) :
    (calculateOverlapArea ⟨PVShape.circular, wd, ht, 2 * r2, eff, pos⟩ Y Z r1 =
      if r1 + r2 ≤ Real.sqrt (Y ^ 2 + Z ^ 2) then 0
      else if Real.sqrt (Y ^ 2 + Z ^ 2) ≤ |r1 - r2| then Real.pi * (min r1 r2) ^ 2
      else
        r1 ^ 2 * Real.arccos
            ((Real.sqrt (Y ^ 2 + Z ^ 2) ^ 2 + r1 ^ 2 - r2 ^ 2)
              / (2 * Real.sqrt (Y ^ 2 + Z ^ 2) * r1))
          + r2 ^ 2 * Real.arccos
            ((Real.sqrt (Y ^ 2 + Z ^ 2) ^ 2 + r2 ^ 2 - r1 ^ 2)
              / (2 * Real.sqrt (Y ^ 2 + Z ^ 2) * r2))
          - 0.5 * Real.sqrt ((-Real.sqrt (Y ^ 2 + Z ^ 2) + r1 + r2)
              * (Real.sqrt (Y ^ 2 + Z ^ 2) + r1 - r2)
              * (Real.sqrt (Y ^ 2 + Z ^ 2) - r1 + r2)
              * (Real.sqrt (Y ^ 2 + Z ^ 2) + r1 + r2))) ∧
    (r1 ≤ r2 → Real.sqrt (Y ^ 2 + Z ^ 2) ≤ r2 - r1 →
      calculateOverlapArea ⟨PVShape.circular, wd, ht, 2 * r2, eff, pos⟩ Y Z r1
        = Real.pi * r1 ^ 2) := by
  have h22 : (2 * r2) / 2 = r2 := by ring
  constructor
  · simp only [calculateOverlapArea, h22]
  · intro hr hd
    simp only [calculateOverlapArea, h22]
    rw [if_neg (by push_neg; linarith : ¬(r1 + r2 ≤ Real.sqrt (Y ^ 2 + Z ^ 2)))]
    rw [if_pos (by rw [abs_of_nonpos (by linarith : r1 - r2 ≤ 0), neg_sub]; exact hd)]
    rw [min_eq_left hr]

/-- Witness for C5: unit spot concentric with a radius-3 receiver. -/
theorem c5_circle_overlap_formula_witness :
    calculateOverlapArea ⟨PVShape.circular, 0, 0, 2 * 3, 1, 0⟩ 0 0 1
      = Real.pi * 1 ^ 2 := by
  refine (c5_circle_overlap_formula 0 0 1 3 0 0 1 0 (by norm_num) (by norm_num)).2
    (by norm_num) ?_
  have h0 : Real.sqrt ((0 : ℝ) ^ 2 + 0 ^ 2) = 0 := by
    norm_num
  rw [h0]; norm_num

lemma degToRad_radToDeg (x : ℝ) : degToRad (radToDeg x) = x := by
  unfold degToRad radToDeg
  field_simp

lemma tan_deg_nonneg (θ : ℝ) (h0 : 0 ≤ θ) (h90 : θ < 90) :
    0 ≤ Real.tan (degToRad θ) := by
  have hπ := Real.pi_pos
  have hθr0 : 0 ≤ degToRad θ := by unfold degToRad; positivity
  have hθr1 : degToRad θ < Real.pi / 2 := by
    unfold degToRad
    nlinarith [mul_pos (sub_pos.mpr h90) Real.pi_pos]
  rw [Real.tan_eq_sin_div_cos]
  apply div_nonneg
  · exact Real.sin_nonneg_of_nonneg_of_le_pi hθr0 (by linarith)
  · exact (Real.cos_pos_of_mem_Ioo ⟨by linarith, hθr1⟩).le

lemma cos_deg_nonneg (θ : ℝ) (h0 : 0 ≤ θ) (h90 : θ < 90) :
    0 ≤ Real.cos (degToRad θ) := by
  have hπ := Real.pi_pos
  have hθr0 : 0 ≤ degToRad θ := by unfold degToRad; positivity
  have hθr1 : degToRad θ < Real.pi / 2 := by
    unfold degToRad
    nlinarith [mul_pos (sub_pos.mpr h90) Real.pi_pos]
  exact (Real.cos_pos_of_mem_Ioo ⟨by linarith, hθr1⟩).le

/- A spot of radius r centered at (Y, 0) with 0 ≤ Y whose bounding square
   stays inside the rectangle is reported with its full circular area. -/
lemma overlap_rect_inside (w h dm eff pos Y r : ℝ) (hr : 0 < r) (hY : 0 ≤ Y)
    (hrw : r ≤ w / 2) (hYr : Y + r ≤ h / 2) :
    calculateOverlapArea ⟨PVShape.rectangular, w, h, dm, eff, pos⟩ Y 0 r
      = Real.pi * r ^ 2 := by
  have hrh : r ≤ h / 2 := by linarith
  have hleft : max (-(w / 2)) (0 - r) = 0 - r := max_eq_right (by linarith)
  have hright : min (w / 2) (0 + r) = 0 + r := min_eq_right (by linarith)
  have hbottom : max (-(h / 2)) (Y - r) = Y - r := max_eq_right (by linarith)
  have htop : min (h / 2) (Y + r) = Y + r := min_eq_right hYr
  simp only [calculateOverlapArea, hleft, hright, hbottom, htop]
  rw [if_neg (by push_neg; constructor <;> linarith)]
  have hc0 : ((Y - r + (Y + r)) / 2 - Y) ^ 2 + ((0 - r + (0 + r)) / 2 - 0) ^ 2 = 0 := by
    ring
  rw [hc0, Real.sqrt_zero, if_pos (by linarith : (0:ℝ) < r * 0.5)]
  have h4 : (0 + r - (0 - r)) * (Y + r - (Y - r)) = 4 * r ^ 2 := by ring
  rw [h4]
  exact min_eq_right (mul_le_mul_of_nonneg_right Real.pi_le_four (sq_nonneg r))

/- Full characterization of the tracer on a single lens with a rectangular
   receiver large enough to contain the (floored) spot. -/
lemma trace_single_rect (i : String) (ap f l τ w h dm eff p θ : ℝ)
    (hf : 0 < f) (hl : 0 ≤ l) (hlp : l < p) (hθ0 : 0 ≤ θ) (hθ90 : θ < 90)
    (hin_w : max (calculateSpotDiameterSingleLens ⟨i, ap, f, l, τ⟩ p θ) 0.001 / 2 ≤ w / 2)
    (hin_h : (p - l) * Real.tan (degToRad θ)
        + max (calculateSpotDiameterSingleLens ⟨i, ap, f, l, τ⟩ p θ) 0.001 / 2 ≤ h / 2) :
    traceRaysThroughSystem ⟨[⟨i, ap, f, l, τ⟩], ⟨PVShape.rectangular, w, h, dm, eff, p⟩⟩ θ =
      ⟨max (calculateSpotDiameterSingleLens ⟨i, ap, f, l, τ⟩ p θ) 0.001,
       Real.pi * (max (calculateSpotDiameterSingleLens ⟨i, ap, f, l, τ⟩ p θ) 0.001 / 2) ^ 2,
       (p - l) * Real.tan (degToRad θ),
       0,
       Real.pi * (max (calculateSpotDiameterSingleLens ⟨i, ap, f, l, τ⟩ p θ) 0.001 / 2) ^ 2,
       (Real.pi * (ap / 2) ^ 2)
         / (Real.pi * (max (calculateSpotDiameterSingleLens ⟨i, ap, f, l, τ⟩ p θ) 0.001 / 2) ^ 2),
       true,
       radToDeg ((1 - l / f) * degToRad θ),
       τ⟩ := by
  have hsd0 : (0:ℝ) < max (calculateSpotDiameterSingleLens ⟨i, ap, f, l, τ⟩ p θ) 0.001 :=
    lt_of_lt_of_le (by norm_num) (le_max_right _ _)
  have hr0 : (0:ℝ) < max (calculateSpotDiameterSingleLens ⟨i, ap, f, l, τ⟩ p θ) 0.001 / 2 := by
    linarith
  have hY0 : 0 ≤ (p - l) * Real.tan (degToRad θ) :=
    mul_nonneg (by linarith) (tan_deg_nonneg θ hθ0 hθ90)
  obtain ⟨hc, hd⟩ := buildSystemMatrix_single_cd i ap f l τ p hl hlp
  have hcenter : f * Real.tan (degToRad θ) * ((p - l) / f)
      = (p - l) * Real.tan (degToRad θ) := by
    field_simp
    ring
  simp only [traceRaysThroughSystem, RayTraceResult.mk.injEq]
  refine ⟨trivial, trivial, hcenter, trivial, ?_, ?_, trivial, ?_, trivial⟩
  · rw [hcenter]
    exact overlap_rect_inside w h dm eff p _ _ hr0 hY0 hin_w hin_h
  · rw [if_pos (mul_pos Real.pi_pos (pow_pos hr0 2))]
  · unfold calculateOutputAngle
    rw [hc, hd]
    ring_nf

/- The corresponding characterization of calculatePower. -/
lemma power_single_rect (i : String) (ap f l τ w h dm eff p θ I : ℝ)
    (hf : 0 < f) (hl : 0 ≤ l) (hlp : l < p) (hθ0 : 0 ≤ θ) (hθ90 : θ < 90)
    (hin_w : max (calculateSpotDiameterSingleLens ⟨i, ap, f, l, τ⟩ p θ) 0.001 / 2 ≤ w / 2)
    (hin_h : (p - l) * Real.tan (degToRad θ)
        + max (calculateSpotDiameterSingleLens ⟨i, ap, f, l, τ⟩ p θ) 0.001 / 2 ≤ h / 2) :
    (calculatePower ⟨[⟨i, ap, f, l, τ⟩], ⟨PVShape.rectangular, w, h, dm, eff, p⟩⟩ ⟨I, θ⟩).inputPower
        = I * (Real.pi * (ap * Real.cos (degToRad θ) / 2) ^ 2) ∧
    (calculatePower ⟨[⟨i, ap, f, l, τ⟩], ⟨PVShape.rectangular, w, h, dm, eff, p⟩⟩ ⟨I, θ⟩).outputPower
        = I * τ * (Real.pi * (ap / 2) ^ 2)
            * max 0 (Real.cos ((1 - l / f) * degToRad θ)) * eff ∧
    (calculatePower ⟨[⟨i, ap, f, l, τ⟩], ⟨PVShape.rectangular, w, h, dm, eff, p⟩⟩ ⟨I, θ⟩).systemEfficiency
        = if 0 < I * (Real.pi * (ap * Real.cos (degToRad θ) / 2) ^ 2) then
            (I * τ * (Real.pi * (ap / 2) ^ 2)
                * max 0 (Real.cos ((1 - l / f) * degToRad θ)) * eff)
              / (I * (Real.pi * (ap * Real.cos (degToRad θ) / 2) ^ 2))
          else 0 := by
  have hsd0 : (0:ℝ) < max (calculateSpotDiameterSingleLens ⟨i, ap, f, l, τ⟩ p θ) 0.001 :=
    lt_of_lt_of_le (by norm_num) (le_max_right _ _)
  have hsA : (0:ℝ) < Real.pi
      * (max (calculateSpotDiameterSingleLens ⟨i, ap, f, l, τ⟩ p θ) 0.001 / 2) ^ 2 :=
    mul_pos Real.pi_pos (pow_pos (by linarith) 2)
  have htr := trace_single_rect i ap f l τ w h dm eff p θ hf hl hlp hθ0 hθ90 hin_w hin_h
  simp only [calculatePower, htr, calculateEffectiveAperture, degToRad_radToDeg]
  refine ⟨trivial, ?_, ?_⟩
  · field_simp
  · congr 1
    field_simp

lemma sqrt_three_lt_two : Real.sqrt 3 < 2 := by
  nlinarith [Real.sq_sqrt (show (0:ℝ) ≤ 3 by norm_num), Real.sqrt_nonneg 3]

lemma one_le_sqrt_three : (1:ℝ) ≤ Real.sqrt 3 := by
  nlinarith [Real.sq_sqrt (show (0:ℝ) ≤ 3 by norm_num), Real.sqrt_nonneg 3]

/-- C1: the failing input evaluated.  bigReceiverSystem passes
validateOpticalSystem, the light source has intensity 1000 > 0 and zenith
angle 60 ∈ [0, 90), yet calculatePower reports outputPower strictly greater
than inputPower and a system efficiency above 1: the concentration factor is
taken over the full aperture while the input power uses the cosine-projected
aperture. -/
theorem c1_power_exceeds_input :
    validateOpticalSystem bigReceiverSystem = [] ∧
    (calculatePower bigReceiverSystem ⟨1000, 60⟩).inputPower
      < (calculatePower bigReceiverSystem ⟨1000, 60⟩).outputPower ∧
    1 < (calculatePower bigReceiverSystem ⟨1000, 60⟩).systemEfficiency := by
  have hdeg : degToRad 60 = Real.pi / 3 := by unfold degToRad; ring
  have hspot : calculateSpotDiameterSingleLens ⟨"l1", 0.1, 0.2, 0, 0.92⟩ 0.3 60 = 0.025 := by
    simp only [calculateSpotDiameterSingleLens, calculateEffectiveAperture]
    rw [if_neg (by norm_num), if_neg (by norm_num)]
    rw [hdeg, Real.cos_pi_div_three]
    rw [show (0.3:ℝ) - 0 - 0.2 = 0.1 by norm_num]
    rw [abs_of_pos (by norm_num : (0:ℝ) < 0.1)]
    norm_num
  have hsd : max (calculateSpotDiameterSingleLens ⟨"l1", 0.1, 0.2, 0, 0.92⟩ 0.3 60) 0.001
      = 0.025 := by
    rw [hspot]; norm_num
  have htan : Real.tan (degToRad 60) = Real.sqrt 3 := by
    rw [hdeg, Real.tan_eq_sin_div_cos, Real.sin_pi_div_three, Real.cos_pi_div_three]
    ring
  have hin_w : max (calculateSpotDiameterSingleLens ⟨"l1", 0.1, 0.2, 0, 0.92⟩ 0.3 60) 0.001 / 2
      ≤ 10 / 2 := by
    rw [hsd]; norm_num
  have hin_h : ((0.3:ℝ) - 0) * Real.tan (degToRad 60)
      + max (calculateSpotDiameterSingleLens ⟨"l1", 0.1, 0.2, 0, 0.92⟩ 0.3 60) 0.001 / 2
      ≤ 10 / 2 := by
    rw [hsd, htan]
    nlinarith [sqrt_three_lt_two, Real.sqrt_nonneg 3]
  obtain ⟨hip, hop, heff⟩ := power_single_rect "l1" 0.1 0.2 0 0.92 10 10 0 0.9 0.3 60 1000
    (by norm_num) le_rfl (by norm_num) (by norm_num) (by norm_num) hin_w hin_h
  have hsys : bigReceiverSystem
      = ⟨[⟨"l1", 0.1, 0.2, 0, 0.92⟩], ⟨PVShape.rectangular, 10, 10, 0, 0.9, 0.3⟩⟩ := rfl
  have hcosarg : ((1:ℝ) - 0 / 0.2) * (Real.pi / 3) = Real.pi / 3 := by norm_num
  refine ⟨?_, ?_, ?_⟩
  · simp [validateOpticalSystem, validateLens, validatePV, bigReceiverSystem]
    norm_num
  · rw [hsys, hip, hop, hdeg, Real.cos_pi_div_three, hcosarg, Real.cos_pi_div_three,
      max_eq_right (by norm_num : (0:ℝ) ≤ 1 / 2)]
    nlinarith [Real.pi_pos]
  · rw [hsys, heff, hdeg, Real.cos_pi_div_three, hcosarg, Real.cos_pi_div_three,
      max_eq_right (by norm_num : (0:ℝ) ≤ 1 / 2)]
    rw [if_pos (by positivity)]
    rw [lt_div_iff (by positivity)]
    nlinarith [Real.pi_pos]

/-- C4 (counterexample): lensAtFocalSystem passes validateOpticalSystem and
0 < 30 < 60 < 90, yet outputPower at zenith angle 60 equals outputPower at
30 (the lens sits at its own focal length, so the exit angle is 0 and the
cosine factor is constant, while the spot is the constant floor value), so
outputPower does not strictly decrease. -/
theorem c4_strict_decrease_cex :
    validateOpticalSystem lensAtFocalSystem = [] ∧
    (calculatePower lensAtFocalSystem ⟨1000, 60⟩).outputPower
      = (calculatePower lensAtFocalSystem ⟨1000, 30⟩).outputPower := by
  have hspotθ : ∀ θ : ℝ,
      calculateSpotDiameterSingleLens ⟨"l1", 0.1, 0.2, 0.2, 0.92⟩ 0.4 θ = 0 := by
    intro θ
    simp only [calculateSpotDiameterSingleLens, calculateEffectiveAperture]
    rw [if_neg (by norm_num), if_pos (by norm_num)]
  have hsd : ∀ θ : ℝ,
      max (calculateSpotDiameterSingleLens ⟨"l1", 0.1, 0.2, 0.2, 0.92⟩ 0.4 θ) 0.001
        = 0.001 := by
    intro θ; rw [hspotθ θ]; norm_num
  have hdeg60 : degToRad 60 = Real.pi / 3 := by unfold degToRad; ring
  have hdeg30 : degToRad 30 = Real.pi / 6 := by unfold degToRad; ring
  have htan60 : Real.tan (degToRad 60) = Real.sqrt 3 := by
    rw [hdeg60, Real.tan_eq_sin_div_cos, Real.sin_pi_div_three, Real.cos_pi_div_three]
    ring
  have htan30 : Real.tan (degToRad 30) ≤ 1 := by
    rw [hdeg30, Real.tan_eq_sin_div_cos, Real.sin_pi_div_six, Real.cos_pi_div_six]
    rw [div_le_one (by positivity)]
    nlinarith [one_le_sqrt_three]
  have hin_w : ∀ θ : ℝ,
      max (calculateSpotDiameterSingleLens ⟨"l1", 0.1, 0.2, 0.2, 0.92⟩ 0.4 θ) 0.001 / 2
        ≤ 10 / 2 := by
    intro θ; rw [hsd θ]; norm_num
  have hin_h60 : ((0.4:ℝ) - 0.2) * Real.tan (degToRad 60)
      + max (calculateSpotDiameterSingleLens ⟨"l1", 0.1, 0.2, 0.2, 0.92⟩ 0.4 60) 0.001 / 2
      ≤ 10 / 2 := by
    rw [hsd 60, htan60]
    nlinarith [sqrt_three_lt_two, Real.sqrt_nonneg 3]
  have hin_h30 : ((0.4:ℝ) - 0.2) * Real.tan (degToRad 30)
      + max (calculateSpotDiameterSingleLens ⟨"l1", 0.1, 0.2, 0.2, 0.92⟩ 0.4 30) 0.001 / 2
      ≤ 10 / 2 := by
    rw [hsd 30]
    nlinarith [htan30, tan_deg_nonneg 30 (by norm_num) (by norm_num)]
  obtain ⟨-, hop60, -⟩ := power_single_rect "l1" 0.1 0.2 0.2 0.92 10 10 0 0.2 0.4 60 1000
    (by norm_num) (by norm_num) (by norm_num) (by norm_num) (by norm_num) (hin_w 60) hin_h60
  obtain ⟨-, hop30, -⟩ := power_single_rect "l1" 0.1 0.2 0.2 0.92 10 10 0 0.2 0.4 30 1000
    (by norm_num) (by norm_num) (by norm_num) (by norm_num) (by norm_num) (hin_w 30) hin_h30
  have hsys : lensAtFocalSystem
      = ⟨[⟨"l1", 0.1, 0.2, 0.2, 0.92⟩], ⟨PVShape.rectangular, 10, 10, 0, 0.2, 0.4⟩⟩ := rfl
  constructor
  · simp [validateOpticalSystem, validateLens, validatePV, lensAtFocalSystem]
    norm_num
  · rw [hsys, hop60, hop30]
    simp only [show ((1:ℝ) - 0.2 / 0.2) = 0 by norm_num, zero_mul, Real.cos_zero]

/-- C4 (amended): for a single lens at axial position 0 with positive
aperture, focal length and transmittance, positive intensity, and a
rectangular receiver with positive efficiency beyond the lens that is large
enough to contain the floored spot at both compared angles, outputPower
strictly decreases in the zenith angle: for 0 ≤ a < b < 90, the output power
at b is strictly below the output power at a. -/
theorem c4_strict_decrease_amended (i : String) (ap f τ w h dm eff p I a b : ℝ)
    (hap : 0 < ap) (hf : 0 < f) (hτ : 0 < τ) (heff : 0 < eff) (hI : 0 < I)
    (hp : 0 < p) (ha : 0 ≤ a) (hab : a < b) (hb : b < 90)
    (hin_w_a : max (calculateSpotDiameterSingleLens ⟨i, ap, f, 0, τ⟩ p a) 0.001 / 2 ≤ w / 2)
    (hin_h_a : (p - 0) * Real.tan (degToRad a)
        + max (calculateSpotDiameterSingleLens ⟨i, ap, f, 0, τ⟩ p a) 0.001 / 2 ≤ h / 2)
    (hin_w_b : max (calculateSpotDiameterSingleLens ⟨i, ap, f, 0, τ⟩ p b) 0.001 / 2 ≤ w / 2)
    (hin_h_b : (p - 0) * Real.tan (degToRad b)
        + max (calculateSpotDiameterSingleLens ⟨i, ap, f, 0, τ⟩ p b) 0.001 / 2 ≤ h / 2) :
    (calculatePower ⟨[⟨i, ap, f, 0, τ⟩], ⟨PVShape.rectangular, w, h, dm, eff, p⟩⟩
        ⟨I, b⟩).outputPower
      < (calculatePower ⟨[⟨i, ap, f, 0, τ⟩], ⟨PVShape.rectangular, w, h, dm, eff, p⟩⟩
        ⟨I, a⟩).outputPower := by
  have hπ := Real.pi_pos
  have ha90 : a < 90 := lt_trans hab hb
  have hb0 : 0 ≤ b := le_trans ha hab.le
  obtain ⟨-, hopb, -⟩ := power_single_rect i ap f 0 τ w h dm eff p b I hf le_rfl hp hb0 hb
    hin_w_b hin_h_b
  obtain ⟨-, hopa, -⟩ := power_single_rect i ap f 0 τ w h dm eff p a I hf le_rfl hp ha ha90
    hin_w_a hin_h_a
  rw [hopa, hopb]
  simp only [zero_div, sub_zero, one_mul]
  have hcosb0 : 0 ≤ Real.cos (degToRad b) := cos_deg_nonneg b hb0 hb
  have hcosa0 : 0 ≤ Real.cos (degToRad a) := cos_deg_nonneg a ha ha90
  have hcos_lt : Real.cos (degToRad b) < Real.cos (degToRad a) := by
    apply Real.cos_lt_cos_of_nonneg_of_le_pi
    · unfold degToRad; positivity
    · unfold degToRad
      nlinarith [mul_pos (sub_pos.mpr hb) Real.pi_pos]
    · unfold degToRad
      nlinarith [mul_pos (sub_pos.mpr hab) Real.pi_pos]
  rw [max_eq_right hcosb0, max_eq_right hcosa0]
  have hfac : 0 < I * τ * (Real.pi * (ap / 2) ^ 2) := by positivity
  exact mul_lt_mul_of_pos_right (mul_lt_mul_of_pos_left hcos_lt hfac) heff

/-- Witness for the amended C4 at a concrete system and angles 30 < 60. -/
theorem c4_strict_decrease_amended_witness :
    (calculatePower monoWitnessSystem ⟨1000, 60⟩).outputPower
      < (calculatePower monoWitnessSystem ⟨1000, 30⟩).outputPower := by
  have hdeg60 : degToRad 60 = Real.pi / 3 := by unfold degToRad; ring
  have hdeg30 : degToRad 30 = Real.pi / 6 := by unfold degToRad; ring
  have htan60 : Real.tan (degToRad 60) = Real.sqrt 3 := by
    rw [hdeg60, Real.tan_eq_sin_div_cos, Real.sin_pi_div_three, Real.cos_pi_div_three]
    ring
  have htan30 : Real.tan (degToRad 30) ≤ 1 := by
    rw [hdeg30, Real.tan_eq_sin_div_cos, Real.sin_pi_div_six, Real.cos_pi_div_six]
    rw [div_le_one (by positivity)]
    nlinarith [one_le_sqrt_three]
  have hspot60 : calculateSpotDiameterSingleLens ⟨"l1", 0.1, 0.2, 0, 0.92⟩ 0.3 60 = 0.025 := by
    simp only [calculateSpotDiameterSingleLens, calculateEffectiveAperture]
    rw [if_neg (by norm_num), if_neg (by norm_num)]
    rw [hdeg60, Real.cos_pi_div_three]
    rw [show (0.3:ℝ) - 0 - 0.2 = 0.1 by norm_num]
    rw [abs_of_pos (by norm_num : (0:ℝ) < 0.1)]
    norm_num
  have hspot30 : calculateSpotDiameterSingleLens ⟨"l1", 0.1, 0.2, 0, 0.92⟩ 0.3 30
      = 0.025 * Real.sqrt 3 := by
    simp only [calculateSpotDiameterSingleLens, calculateEffectiveAperture]
    rw [if_neg (by norm_num), if_neg (by norm_num)]
    rw [hdeg30, Real.cos_pi_div_six]
    rw [show (0.3:ℝ) - 0 - 0.2 = 0.1 by norm_num]
    rw [abs_of_pos (by norm_num : (0:ℝ) < 0.1)]
    ring
  have hsd60 : max (calculateSpotDiameterSingleLens ⟨"l1", 0.1, 0.2, 0, 0.92⟩ 0.3 60) 0.001
      = 0.025 := by
    rw [hspot60]; norm_num
  have hsd30 : max (calculateSpotDiameterSingleLens ⟨"l1", 0.1, 0.2, 0, 0.92⟩ 0.3 30) 0.001
      = 0.025 * Real.sqrt 3 := by
    rw [hspot30]
    exact max_eq_left (by nlinarith [one_le_sqrt_three])
  have hsys : monoWitnessSystem
      = ⟨[⟨"l1", 0.1, 0.2, 0, 0.92⟩], ⟨PVShape.rectangular, 10, 10, 0, 0.2, 0.3⟩⟩ := rfl
  rw [hsys]
  apply c4_strict_decrease_amended "l1" 0.1 0.2 0.92 10 10 0 0.2 0.3 1000 30 60
    (by norm_num) (by norm_num) (by norm_num) (by norm_num) (by norm_num) (by norm_num)
    (by norm_num) (by norm_num) (by norm_num)
  · rw [hsd30]
    nlinarith [sqrt_three_lt_two, Real.sqrt_nonneg 3]
  · rw [hsd30]
    nlinarith [sqrt_three_lt_two, Real.sqrt_nonneg 3, htan30,
      tan_deg_nonneg 30 (by norm_num) (by norm_num)]
  · rw [hsd60]
    norm_num
  · rw [hsd60, htan60]
    nlinarith [sqrt_three_lt_two, Real.sqrt_nonneg 3]

/- ===== bounds for the circle-circle intersection formula (for C10) ===== -/

lemma sq_eq_of_nonneg (a b : ℝ) (ha : 0 ≤ a) (hb : 0 ≤ b) (h : a ^ 2 = b ^ 2) :
    a = b := by
  by_contra hne
  rcases lt_or_gt_of_ne hne with hlt | hgt
  · nlinarith
  · nlinarith

lemma sin_mul_cos_le_self (θ : ℝ) (h : 0 ≤ θ) : Real.sin θ * Real.cos θ ≤ θ := by
  rcases h.eq_or_lt with h0 | h0
  · rw [← h0]
    simp
  · have h2 := (Real.sin_lt (by linarith : (0:ℝ) < 2 * θ)).le
    rw [Real.sin_two_mul] at h2
    linarith

lemma sin_sub_mul_cos_pos (x : ℝ) (hx0 : 0 < x) (hxπ : x < Real.pi) :
    0 < Real.sin x - x * Real.cos x := by
  have hmono : StrictMonoOn (fun t : ℝ => Real.sin t - t * Real.cos t)
      (Set.Icc 0 Real.pi) := by
    apply strictMonoOn_of_deriv_pos (convex_Icc 0 Real.pi)
    · exact (Real.continuous_sin.sub (continuous_id.mul Real.continuous_cos)).continuousOn
    · intro t ht
      rw [interior_Icc] at ht
      have hF : HasDerivAt (fun t : ℝ => Real.sin t - t * Real.cos t)
          (Real.cos t - (1 * Real.cos t + t * -Real.sin t)) t :=
        (Real.hasDerivAt_sin t).sub ((hasDerivAt_id t).mul (Real.hasDerivAt_cos t))
      rw [hF.deriv]
      have hs : 0 < Real.sin t := Real.sin_pos_of_pos_of_lt_pi ht.1 ht.2
      nlinarith [mul_pos ht.1 hs]
  have h := hmono (Set.left_mem_Icc.mpr Real.pi_pos.le) ⟨hx0.le, hxπ.le⟩ hx0
  simpa using h

lemma phi_strictMonoOn :
    StrictMonoOn (fun θ : ℝ => (θ - Real.sin θ * Real.cos θ) / (Real.sin θ) ^ 2)
      (Set.Ioo 0 Real.pi) := by
  apply strictMonoOn_of_deriv_pos (convex_Ioo 0 Real.pi)
  · apply ContinuousOn.div
    · exact (continuous_id.sub (Real.continuous_sin.mul Real.continuous_cos)).continuousOn
    · exact (Real.continuous_sin.pow 2).continuousOn
    · intro x hx
      exact pow_ne_zero 2 (Real.sin_pos_of_pos_of_lt_pi hx.1 hx.2).ne'
  · intro x hx
    rw [interior_Ioo] at hx
    have hs : 0 < Real.sin x := Real.sin_pos_of_pos_of_lt_pi hx.1 hx.2
    have hnum : HasDerivAt (fun θ : ℝ => θ - Real.sin θ * Real.cos θ)
        (1 - (Real.cos x * Real.cos x + Real.sin x * -Real.sin x)) x :=
      (hasDerivAt_id x).sub ((Real.hasDerivAt_sin x).mul (Real.hasDerivAt_cos x))
    have hden : HasDerivAt (fun θ : ℝ => (Real.sin θ) ^ 2)
        ((2 : ℕ) * Real.sin x ^ 1 * Real.cos x) x := (Real.hasDerivAt_sin x).pow 2
    have hd2 : deriv (fun θ : ℝ => (θ - Real.sin θ * Real.cos θ) / (Real.sin θ) ^ 2) x
        = ((1 - (Real.cos x * Real.cos x + Real.sin x * -Real.sin x)) * (Real.sin x) ^ 2
            - (x - Real.sin x * Real.cos x) * ((2 : ℕ) * Real.sin x ^ 1 * Real.cos x))
          / ((Real.sin x) ^ 2) ^ 2 :=
      (hnum.div hden (pow_ne_zero 2 hs.ne')).deriv
    rw [hd2]
    apply div_pos
    · have hkey := sin_sub_mul_cos_pos x hx.1 hx.2
      have hpy := Real.sin_sq_add_cos_sq x
      have hexpr : (1 - (Real.cos x * Real.cos x + Real.sin x * -Real.sin x)) * (Real.sin x) ^ 2
          - (x - Real.sin x * Real.cos x) * ((2 : ℕ) * Real.sin x ^ 1 * Real.cos x)
          = 2 * (Real.sin x * (Real.sin x - x * Real.cos x)) := by
        push_cast
        linear_combination (Real.sin x ^ 2) * hpy
      rw [hexpr]
      positivity
    · positivity

lemma circle_lens_bounds (r1 r2 d : ℝ) (h1 : 0 < r1) (h2 : 0 < r2)
    (hlo : |r1 - r2| < d) (hhi : d < r1 + r2) :
    0 ≤ r1 ^ 2 * Real.arccos ((d ^ 2 + r1 ^ 2 - r2 ^ 2) / (2 * d * r1))
        + r2 ^ 2 * Real.arccos ((d ^ 2 + r2 ^ 2 - r1 ^ 2) / (2 * d * r2))
        - 0.5 * Real.sqrt ((-d + r1 + r2) * (d + r1 - r2) * (d - r1 + r2) * (d + r1 + r2)) ∧
    r1 ^ 2 * Real.arccos ((d ^ 2 + r1 ^ 2 - r2 ^ 2) / (2 * d * r1))
        + r2 ^ 2 * Real.arccos ((d ^ 2 + r2 ^ 2 - r1 ^ 2) / (2 * d * r2))
        - 0.5 * Real.sqrt ((-d + r1 + r2) * (d + r1 - r2) * (d - r1 + r2) * (d + r1 + r2))
      ≤ Real.pi * r1 ^ 2 := by
  have hd : 0 < d := lt_of_le_of_lt (abs_nonneg _) hlo
  obtain ⟨hab1, hab2⟩ := abs_lt.mp hlo
  set α1 := (d ^ 2 + r1 ^ 2 - r2 ^ 2) / (2 * d * r1) with hα1
  set α2 := (d ^ 2 + r2 ^ 2 - r1 ^ 2) / (2 * d * r2) with hα2
  have hden1 : (0:ℝ) < 2 * d * r1 := by positivity
  have hden2 : (0:ℝ) < 2 * d * r2 := by positivity
  have hα1_lt : α1 < 1 := by
    rw [hα1, div_lt_one hden1]
    nlinarith [mul_pos (show 0 < r2 - (d - r1) by linarith)
      (show 0 < r2 + (d - r1) by linarith)]
  have hα1_gt : -1 < α1 := by
    rw [hα1, lt_div_iff hden1]
    nlinarith [mul_pos (show 0 < d + r1 - r2 by linarith)
      (show 0 < d + r1 + r2 by linarith)]
  have hα2_lt : α2 < 1 := by
    rw [hα2, div_lt_one hden2]
    nlinarith [mul_pos (show 0 < r1 - (d - r2) by linarith)
      (show 0 < r1 + (d - r2) by linarith)]
  have hα2_gt : -1 < α2 := by
    rw [hα2, lt_div_iff hden2]
    nlinarith [mul_pos (show 0 < d + r2 - r1 by linarith)
      (show 0 < d + r2 + r1 by linarith)]
  set θ1 := Real.arccos α1 with hθ1
  set θ2 := Real.arccos α2 with hθ2
  have hc1 : Real.cos θ1 = α1 := by rw [hθ1]; exact Real.cos_arccos hα1_gt.le hα1_lt.le
  have hc2 : Real.cos θ2 = α2 := by rw [hθ2]; exact Real.cos_arccos hα2_gt.le hα2_lt.le
  have hs1 : Real.sin θ1 = Real.sqrt (1 - α1 ^ 2) := by rw [hθ1]; exact Real.sin_arccos α1
  have hs2 : Real.sin θ2 = Real.sqrt (1 - α2 ^ 2) := by rw [hθ2]; exact Real.sin_arccos α2
  have hθ1pos : 0 < θ1 := by rw [hθ1]; exact Real.arccos_pos.mpr hα1_lt
  have hθ2pos : 0 < θ2 := by rw [hθ2]; exact Real.arccos_pos.mpr hα2_lt
  have hθ1lt : θ1 < Real.pi := by
    rw [hθ1]
    refine lt_of_le_of_ne (Real.arccos_le_pi α1) (fun heq => ?_)
    have := Real.arccos_eq_pi.mp heq
    linarith
  have hθ2lt : θ2 < Real.pi := by
    rw [hθ2]
    refine lt_of_le_of_ne (Real.arccos_le_pi α2) (fun heq => ?_)
    have := Real.arccos_eq_pi.mp heq
    linarith
  have hs1pos : 0 < Real.sin θ1 := Real.sin_pos_of_pos_of_lt_pi hθ1pos hθ1lt
  have hs2pos : 0 < Real.sin θ2 := Real.sin_pos_of_pos_of_lt_pi hθ2pos hθ2lt
  have hsq : (r1 * Real.sin θ1) ^ 2 = (r2 * Real.sin θ2) ^ 2 := by
    rw [hs1, hs2, mul_pow, mul_pow,
      Real.sq_sqrt (by nlinarith : (0:ℝ) ≤ 1 - α1 ^ 2),
      Real.sq_sqrt (by nlinarith : (0:ℝ) ≤ 1 - α2 ^ 2), hα1, hα2]
    field_simp
    ring
  have hchord : r1 * Real.sin θ1 = r2 * Real.sin θ2 :=
    sq_eq_of_nonneg _ _ (mul_nonneg h1.le hs1pos.le) (mul_nonneg h2.le hs2pos.le) hsq
  have hsum : r1 * Real.cos θ1 + r2 * Real.cos θ2 = d := by
    rw [hc1, hc2, hα1, hα2]
    field_simp
    ring
  have hP : (-d + r1 + r2) * (d + r1 - r2) * (d - r1 + r2) * (d + r1 + r2)
      = (2 * d * r1) ^ 2 * (1 - α1 ^ 2) := by
    rw [hα1]
    field_simp
    ring
  have hsqrtP : Real.sqrt ((-d + r1 + r2) * (d + r1 - r2) * (d - r1 + r2) * (d + r1 + r2))
      = 2 * d * r1 * Real.sin θ1 := by
    rw [hP, hs1, Real.sqrt_mul (sq_nonneg _), Real.sqrt_sq hden1.le]
  have hhalf : 0.5 * Real.sqrt ((-d + r1 + r2) * (d + r1 - r2) * (d - r1 + r2) * (d + r1 + r2))
      = r1 ^ 2 * (Real.sin θ1 * Real.cos θ1) + r2 ^ 2 * (Real.sin θ2 * Real.cos θ2) := by
    rw [hsqrtP]
    linear_combination (-(r1 * Real.sin θ1)) * hsum + (r2 * Real.cos θ2) * hchord
  have hu1 : Real.sin θ1 * Real.cos θ1 ≤ θ1 := sin_mul_cos_le_self θ1 hθ1pos.le
  have hu2 : Real.sin θ2 * Real.cos θ2 ≤ θ2 := sin_mul_cos_le_self θ2 hθ2pos.le
  constructor
  · rw [hhalf]
    linarith [mul_le_mul_of_nonneg_left hu1 (sq_nonneg r1),
      mul_le_mul_of_nonneg_left hu2 (sq_nonneg r2)]
  · have hsin_add : Real.sin (θ1 + θ2) * (r1 * r2) = (r1 * Real.sin θ1) * d := by
      rw [Real.sin_add, ← hsum]
      linear_combination (-(r1 * Real.cos θ1)) * hchord
    have hrr : 0 < r1 * r2 := mul_pos h1 h2
    have hadd_pos : 0 < Real.sin (θ1 + θ2) := by
      have hq : 0 < ((r1 * Real.sin θ1) * d) / (r1 * r2) :=
        div_pos (mul_pos (mul_pos h1 hs1pos) hd) hrr
      calc (0:ℝ) < ((r1 * Real.sin θ1) * d) / (r1 * r2) := hq
        _ = Real.sin (θ1 + θ2) := by
            rw [← hsin_add]
            field_simp
    have hsumlt : θ1 + θ2 < Real.pi := by
      by_contra hcon
      push_neg at hcon
      have hnn : 0 ≤ Real.sin (θ1 + θ2 - Real.pi) :=
        Real.sin_nonneg_of_nonneg_of_le_pi (by linarith) (by linarith)
      rw [Real.sin_sub_pi] at hnn
      linarith
    have hφ := phi_strictMonoOn (Set.mem_Ioo.mpr ⟨hθ2pos, hθ2lt⟩)
      (Set.mem_Ioo.mpr ⟨by linarith, by linarith⟩) (by linarith : θ2 < Real.pi - θ1)
    have hφ' : (θ2 - Real.sin θ2 * Real.cos θ2) / (Real.sin θ2) ^ 2
        ≤ (Real.pi - θ1 + Real.sin θ1 * Real.cos θ1) / (Real.sin θ1) ^ 2 := by
      have h := hφ.le
      simp only [Real.sin_pi_sub, Real.cos_pi_sub, mul_neg, sub_neg_eq_add] at h
      exact h
    have hkey : r2 ^ 2 * (θ2 - Real.sin θ2 * Real.cos θ2)
        ≤ r1 ^ 2 * (Real.pi - θ1 + Real.sin θ1 * Real.cos θ1) := by
      have e2 : r2 ^ 2 * (θ2 - Real.sin θ2 * Real.cos θ2)
          = (r2 * Real.sin θ2) ^ 2
            * ((θ2 - Real.sin θ2 * Real.cos θ2) / (Real.sin θ2) ^ 2) := by
        field_simp
        ring
      have e1 : r1 ^ 2 * (Real.pi - θ1 + Real.sin θ1 * Real.cos θ1)
          = (r1 * Real.sin θ1) ^ 2
            * ((Real.pi - θ1 + Real.sin θ1 * Real.cos θ1) / (Real.sin θ1) ^ 2) := by
        field_simp
        ring
      rw [e1, e2, ← hchord]
      exact mul_le_mul_of_nonneg_left hφ' (sq_nonneg _)
    rw [hhalf]
    linarith [hkey, mul_le_mul_of_nonneg_left hu1 (sq_nonneg r1)]

lemma overlap_area_bounds (pv : PhotovoltaicCell) (Y Z r : ℝ) (hr : 0 < r) :
    0 ≤ calculateOverlapArea pv Y Z r ∧
    calculateOverlapArea pv Y Z r ≤ Real.pi * r ^ 2 := by
  rcases pv with ⟨shape, w, h, dm, eff, pos⟩
  cases shape with
  | circular =>
    simp only [calculateOverlapArea]
    have hdd0 : 0 ≤ Real.sqrt (Y ^ 2 + Z ^ 2) := Real.sqrt_nonneg _
    split_ifs with hb1 hb2
    · exact ⟨le_refl 0, by positivity⟩
    · push_neg at hb1
      constructor
      · positivity
      · rcases le_total r (dm / 2) with hm | hm
        · rw [min_eq_left hm]
        · rw [min_eq_right hm]
          have hlow : -r < dm / 2 := by linarith
          have hsq : (dm / 2) ^ 2 ≤ r ^ 2 := by nlinarith
          exact mul_le_mul_of_nonneg_left hsq Real.pi_pos.le
    · push_neg at hb1 hb2
      have hpv2 : 0 < dm / 2 := by
        by_contra hc
        push_neg at hc
        rw [abs_of_pos (by linarith : 0 < r - dm / 2)] at hb2
        linarith
      exact circle_lens_bounds r (dm / 2) (Real.sqrt (Y ^ 2 + Z ^ 2)) hr hpv2 hb2 hb1
  | rectangular =>
    simp only [calculateOverlapArea]
    split_ifs with hb1 hb2
    · exact ⟨le_refl 0, by positivity⟩
    · push_neg at hb1
      refine ⟨le_min ?_ (by positivity), min_le_right _ _⟩
      exact mul_nonneg (by linarith [hb1.1]) (by linarith [hb1.2])
    · push_neg at hb1
      refine ⟨le_min ?_ (by positivity), min_le_right _ _⟩
      exact mul_nonneg (mul_nonneg (by linarith [hb1.1]) (by linarith [hb1.2])) (by norm_num)

/-- C10: for every receiver (circular or rectangular) and every spot of
radius r > 0 at any center, the overlap area lies between 0 and the spot's
own circular area π r²; consequently every valid RayTraceResult has
effectiveArea ≤ spotArea, so the capture ratio effectiveArea/spotArea is at
most 1. -/
theorem c10_overlap_bounded :
    (∀ (pv : PhotovoltaicCell) (Y Z r : ℝ), 0 < r →
      0 ≤ calculateOverlapArea pv Y Z r ∧
      calculateOverlapArea pv Y Z r ≤ Real.pi * r ^ 2) ∧
    (∀ (sys : OpticalSystem) (θ : ℝ), (traceRaysThroughSystem sys θ).isValid = true →
      (traceRaysThroughSystem sys θ).effectiveArea ≤ (traceRaysThroughSystem sys θ).spotArea ∧
      (traceRaysThroughSystem sys θ).effectiveArea / (traceRaysThroughSystem sys θ).spotArea
        ≤ 1) := by
  refine ⟨fun pv Y Z r hr => overlap_area_bounds pv Y Z r hr, fun sys θ hv => ?_⟩
  rcases sys with ⟨lenses, pv⟩
  rcases lenses with _ | ⟨a, _ | ⟨b, t⟩⟩
  · simp [traceRaysThroughSystem] at hv
  · have hr0 : (0:ℝ) < max (calculateSpotDiameterSingleLens a pv.position θ) 0.001 / 2 := by
      have h1 : (0.001:ℝ) ≤ max (calculateSpotDiameterSingleLens a pv.position θ) 0.001 :=
        le_max_right _ _
      linarith
    have hbounds := overlap_area_bounds pv
      (a.focalLength * Real.tan (degToRad θ) * ((pv.position - a.position) / a.focalLength)) 0
      (max (calculateSpotDiameterSingleLens a pv.position θ) 0.001 / 2) hr0
    have hpos : (0:ℝ) < Real.pi
        * (max (calculateSpotDiameterSingleLens a pv.position θ) 0.001 / 2) ^ 2 :=
      mul_pos Real.pi_pos (pow_pos hr0 2)
    exact ⟨hbounds.2, (div_le_one hpos).mpr hbounds.2⟩
  · simp [traceRaysThroughSystem] at hv

/-- Witness for C10 at a concrete circular receiver and unit spot. -/
theorem c10_overlap_bounded_witness :
    0 ≤ calculateOverlapArea ⟨PVShape.circular, 0, 0, 4, 1, 0⟩ 1 0 1 ∧
    calculateOverlapArea ⟨PVShape.circular, 0, 0, 4, 1, 0⟩ 1 0 1 ≤ Real.pi * 1 ^ 2 :=
  c10_overlap_bounded.1 ⟨PVShape.circular, 0, 0, 4, 1, 0⟩ 1 0 1 (by norm_num)

end Sunlight
